import Mathlib

/-!
Shallow embedding of the security/edge core of the `ferrous` service:
the fixed-window rate limiter (`src/rate_limit.rs` and its duplicate
snapshot `src/middleware/rate_limit.rs`), the JWKS-backed JWT validator
(`src/auth.rs`), and the middleware stages built on them.

Modelling conventions:
an instant (`std::time::Instant` / `SystemTime`) is a `Nat`;
a `Duration` is a `Nat` (seconds);
`HashMap` / `HeaderMap` are association lists with replace-on-insert;
network I/O and cryptographic primitives (`reqwest` fetch,
`jsonwebtoken::decode_header`, `DecodingKey::from_jwk`, `decode`) are
deterministic oracles collected in an `Env` record, and every stateful
operation threads its cache explicitly and reports the number of network
fetches it performed.
-/

namespace Ferrous

instance exceptDecEq {ε α : Type} [DecidableEq ε] [DecidableEq α] :
    DecidableEq (Except ε α) := fun x y =>
  match x, y with
  | Except.ok a, Except.ok b =>
      if h : a = b then Decidable.isTrue (by rw [h])
      else Decidable.isFalse (by simp [h])
  | Except.error a, Except.error b =>
      if h : a = b then Decidable.isTrue (by rw [h])
      else Decidable.isFalse (by simp [h])
  | Except.ok _, Except.error _ => Decidable.isFalse (by simp)
  | Except.error _, Except.ok _ => Decidable.isFalse (by simp)

/-- Association-list lookup, modelling `HashMap::get`. -/
def alookup {α : Type} : List (String × α) → String → Option α
  | [], _ => none
  | (k, v) :: rest, key => if k = key then some v else alookup rest key

/-- Association-list insert with in-place replacement, modelling
`HashMap::insert` / `HeaderMap::insert` (replace the binding if the key
is present, otherwise add it). -/
def ainsert {α : Type} : List (String × α) → String → α → List (String × α)
  | [], key, v => [(key, v)]
  | (k, w) :: rest, key, v =>
      if k = key then (key, v) :: rest else (k, w) :: ainsert rest key v

namespace RateLimit

/-- `RateLimitConfig` from `src/rate_limit.rs`. -/
structure RateLimitConfig where
  max_requests : Nat
  window_duration : Nat
  enabled : Bool
deriving DecidableEq, Repr

/-- `Window` from `src/rate_limit.rs`: per-identity fixed-window counter. -/
structure Window where
  count : Nat
  reset_at : Nat
deriving DecidableEq, Repr

/-- The shared `windows: HashMap<IpAddr, Window>` map, keyed by the
client identity (IP address rendered as a string). -/
abbrev WindowMap := List (String × Window)

/-- `RateLimiter::check_rate_limit` from `src/rate_limit.rs` lines 93-120.
Returns the Rust `Result<(limit, remaining, reset_at), StatusCode>`
(status codes as numbers) together with the map after the call.
The Rust `windows.entry(ip).or_insert(...)` inserts a fresh window before
the reset/limit checks, so even a Blocked call writes the entry back. -/
def check_rate_limit (config : RateLimitConfig) (windows : WindowMap)
    (ip : String) (now : Nat) :
    Except Nat (Nat × Nat × Nat) × WindowMap :=
  if config.enabled = false then
    (Except.ok (config.max_requests, 0, now + config.window_duration), windows)
  else
    let w0 := (alookup windows ip).getD ⟨0, now + config.window_duration⟩
    let w1 := if w0.reset_at ≤ now then
        (⟨0, now + config.window_duration⟩ : Window)
      else w0
    if config.max_requests ≤ w1.count then
      (Except.error 429, ainsert windows ip w1)
    else
      let w2 : Window := ⟨w1.count + 1, w1.reset_at⟩
      (Except.ok (config.max_requests, config.max_requests - w2.count, w2.reset_at),
       ainsert windows ip w2)

/-- Modelled from the spec (section 4.3 wording, enabled case): on each
check, if `now >= reset_at` reset `count = 0` and `reset_at = now + window`;
then if `count >= max_requests` return Blocked without incrementing;
otherwise increment `count` and return Allowed with
`remaining = max_requests - count`. -/
def fixedWindowSpec (config : RateLimitConfig) (windows : WindowMap)
    (ip : String) (now : Nat) :
    Except Nat (Nat × Nat × Nat) × WindowMap :=
  let w0 := (alookup windows ip).getD ⟨0, now + config.window_duration⟩
  let w1 := if now ≥ w0.reset_at then
      (⟨0, now + config.window_duration⟩ : Window)
    else w0
  if w1.count ≥ config.max_requests then
    (Except.error 429, ainsert windows ip w1)
  else
    let w2 : Window := ⟨w1.count + 1, w1.reset_at⟩
    (Except.ok (config.max_requests, config.max_requests - w2.count, w2.reset_at),
     ainsert windows ip w2)

/-- The window map after `k` consecutive `check_rate_limit` calls for the
same identity at the same instant, starting from the empty map. -/
def checksFrom (config : RateLimitConfig) (ip : String) (now : Nat) :
    Nat → WindowMap
  | 0 => []
  | k + 1 => (check_rate_limit config (checksFrom config ip now k) ip now).2

end RateLimit

/-- A two-level JSON value: a field of a response body is either a string
or a flat object of string fields (all the bodies this core builds fit
this shape). -/
inductive JField where
  | jstr : String → JField
  | jobj : List (String × String) → JField
deriving DecidableEq, Repr

/-- A JSON object body: named fields. -/
abbrev JObj := List (String × JField)

/-- An HTTP response as this core observes it: status code, headers and
a JSON object body (the opaque body of a business-stage response is
modelled as an arbitrary `JObj`). -/
structure Response where
  status : Nat
  headers : List (String × String)
  body : JObj
deriving DecidableEq, Repr

namespace RateLimit

/-- The rejection body built at `src/rate_limit.rs` lines 155-160:
`json!({"error": {"code": "RATE_LIMIT_EXCEEDED", "message": ...}})`. -/
def rateLimitExceededBody : JObj :=
  [("error", JField.jobj
      [("code", "RATE_LIMIT_EXCEEDED"),
       ("message", "Too many requests. Please try again later.")])]

/-- The fallback body built at `src/rate_limit.rs` lines 171-176. -/
def internalErrorBody : JObj :=
  [("error", JField.jobj
      [("code", "INTERNAL_ERROR"),
       ("message", "An error occurred while processing your request.")])]

/-- `rate_limit_middleware` from `src/rate_limit.rs` lines 124-180.
`next` is the response the business stage would produce; the `Bool` in
the result records whether `next.run` was invoked. On Allowed it runs
the next stage and inserts the three `X-RateLimit-*` headers; on Blocked
it short-circuits to a 429 with `Retry-After: 60` and the JSON rejection
body (building the response fresh, so no rate headers are attached). -/
def rate_limit_middleware (config : RateLimitConfig) (windows : WindowMap)
    (ip : String) (now : Nat) (next : Response) :
    (Response × Bool) × WindowMap :=
  match check_rate_limit config windows ip now with
  | (Except.ok (limit, remaining, reset_at), w) =>
      let hs := ainsert next.headers "X-RateLimit-Limit" (toString limit)
      let hs := ainsert hs "X-RateLimit-Remaining" (toString remaining)
      let hs := ainsert hs "X-RateLimit-Reset" (toString (reset_at - now))
      ((⟨next.status, hs, next.body⟩, true), w)
  | (Except.error 429, w) =>
      ((⟨429, ainsert [] "Retry-After" "60", rateLimitExceededBody⟩, false), w)
  | (Except.error _, w) =>
      ((⟨500, [], internalErrorBody⟩, false), w)

end RateLimit

namespace MW

/-- `RateLimitConfig` from the duplicate snapshot
`src/middleware/rate_limit.rs`. -/
structure RateLimitConfig where
  requests_per_minute : Nat
  enabled : Bool
deriving DecidableEq, Repr

/-- `RateLimiter::check_rate_limit` from `src/middleware/rate_limit.rs`
lines 65-93: same fixed-window algorithm with a hard-coded 60-second
window; the disabled bypass returns
`(requests_per_minute, requests_per_minute, now + 60)`. -/
def check_rate_limit (config : RateLimitConfig)
    (windows : RateLimit.WindowMap) (ip : String) (now : Nat) :
    Except Nat (Nat × Nat × Nat) × RateLimit.WindowMap :=
  if config.enabled = false then
    (Except.ok (config.requests_per_minute, config.requests_per_minute, now + 60),
     windows)
  else
    let w0 := (alookup windows ip).getD ⟨0, now + 60⟩
    let w1 := if w0.reset_at ≤ now then (⟨0, now + 60⟩ : RateLimit.Window) else w0
    if config.requests_per_minute ≤ w1.count then
      (Except.error 429, ainsert windows ip w1)
    else
      let w2 : RateLimit.Window := ⟨w1.count + 1, w1.reset_at⟩
      (Except.ok
        (config.requests_per_minute, config.requests_per_minute - w2.count,
         w2.reset_at),
       ainsert windows ip w2)

/-- `rate_limit_middleware` from `src/middleware/rate_limit.rs`
lines 97-145: identical to the `src/rate_limit.rs` version except that
the non-429 error arm returns a bare 500 with no JSON body. -/
def rate_limit_middleware (config : RateLimitConfig)
    (windows : RateLimit.WindowMap) (ip : String) (now : Nat)
    (next : Response) : (Response × Bool) × RateLimit.WindowMap :=
  match check_rate_limit config windows ip now with
  | (Except.ok (limit, remaining, reset_at), w) =>
      let hs := ainsert next.headers "X-RateLimit-Limit" (toString limit)
      let hs := ainsert hs "X-RateLimit-Remaining" (toString remaining)
      let hs := ainsert hs "X-RateLimit-Reset" (toString (reset_at - now))
      ((⟨next.status, hs, next.body⟩, true), w)
  | (Except.error 429, w) =>
      ((⟨429, ainsert [] "Retry-After" "60", RateLimit.rateLimitExceededBody⟩,
        false), w)
  | (Except.error _, w) =>
      ((⟨500, [], []⟩, false), w)

end MW

namespace Auth

/-- `Claims` from `src/auth.rs`: the decoded JWT payload. The
serde-flattened `custom` map of arbitrary JSON values is modelled as an
association list of opaque strings; no claim in scope inspects it. -/
structure Claims where
  sub : String
  exp : Nat
  iat : Nat
  iss : Option String
  aud : Option String
  custom : List (String × String)
deriving DecidableEq, Repr

/-- The JWT header as `jsonwebtoken::decode_header` returns it: the
declared algorithm (opaque tag) and the optional key id. -/
structure JwtHeader where
  alg : Nat
  kid : Option String
deriving DecidableEq, Repr

/-- One JWK: its `common.key_id` and opaque key material. -/
structure Jwk where
  key_id : Option String
  material : Nat
deriving DecidableEq, Repr

/-- `jsonwebtoken::jwk::JwkSet`: the ordered list of keys of one
issuer's JWKS document. -/
structure JwkSet where
  keys : List Jwk
deriving DecidableEq, Repr

/-- `JwksCache` from `src/auth.rs` lines 100-104: one cache entry. -/
structure JwksCache where
  jwks : JwkSet
  fetched_at : Nat
deriving DecidableEq, Repr

/-- The shared `jwks_cache: HashMap<String, JwksCache>` keyed by issuer
URL. -/
abbrev JwksCacheMap := List (String × JwksCache)

/-- `AuthConfig` from `src/auth.rs` lines 30-42. -/
structure AuthConfig where
  enabled : Bool
  jwks_urls : List String
  audience : Option String
  issuer : Option String
  jwks_cache_duration : Nat
deriving DecidableEq, Repr

/-- `AuthError` from `src/auth.rs` lines 226-242. -/
inductive AuthError where
  | invalidToken : String → AuthError
  | missingAuthHeader : AuthError
  | invalidAuthHeader : AuthError
  | jwksFetchError : String → AuthError
  | authRequired : AuthError
deriving DecidableEq, Repr

/-- The `jsonwebtoken::Validation` policy built in `validate_token`
lines 204-213: algorithm from the token header, audience and issuer
from configuration when present. -/
structure Validation where
  alg : Nat
  aud : Option String
  iss : Option String
deriving DecidableEq, Repr

/-- `jsonwebtoken::TokenData<Claims>`. -/
structure TokenData where
  header : JwtHeader
  claims : Claims
deriving DecidableEq, Repr

/-- Deterministic oracles for the operations the validator delegates to
the `jsonwebtoken` library and the network: header decoding, the
combined outcome of `fetch_jwks` (HTTP GET + status check + JSON parse,
`src/auth.rs` lines 124-144), `DecodingKey::from_jwk` (key material as a
number), and `decode::<Claims>` under a validation policy. -/
structure Env where
  decodeHeader : String → Except String JwtHeader
  fetch : String → Except String JwkSet
  decodeKey : Jwk → Except String Nat
  decodeToken : String → Nat → Validation → Except String TokenData

/-- The cache-liveness test of `get_jwks` line 152:
`cached.fetched_at.elapsed().unwrap_or(Duration::MAX) < ttl`. A clock
that went backwards (`elapsed()` error) is treated as expired, exactly
as `Duration::MAX < ttl` is false. -/
def cacheLive (fetched_at now ttl : Nat) : Bool :=
  decide (fetched_at ≤ now) && decide (now - fetched_at < ttl)

/-- `JwtValidator::get_jwks` from `src/auth.rs` lines 147-176. Returns
the Rust result, the cache after the call, and the number of network
fetches performed (0 or 1). A live entry is returned with no fetch and
no mutation; otherwise the URL is fetched, a failure propagates
`JwksFetchError` leaving the cache untouched, and a success installs a
fresh entry stamped with the current time. -/
def get_jwks (env : Env) (config : AuthConfig) (now : Nat)
    (cache : JwksCacheMap) (url : String) :
    Except AuthError JwkSet × JwksCacheMap × Nat :=
  match alookup cache url with
  | some cached =>
      if cacheLive cached.fetched_at now config.jwks_cache_duration then
        (Except.ok cached.jwks, cache, 0)
      else
        match env.fetch url with
        | Except.error e => (Except.error (AuthError.jwksFetchError e), cache, 1)
        | Except.ok jwks =>
            (Except.ok jwks, ainsert cache url ⟨jwks, now⟩, 1)
  | none =>
      match env.fetch url with
      | Except.error e => (Except.error (AuthError.jwksFetchError e), cache, 1)
      | Except.ok jwks =>
          (Except.ok jwks, ainsert cache url ⟨jwks, now⟩, 1)

/-- The tail of the matched-key branch of `validate_token`
(`src/auth.rs` lines 200-217): build the decoding key from the matched
JWK, build the validation policy, and decode; every failure maps to
`InvalidToken`. -/
def keyOutcome (env : Env) (config : AuthConfig) (hd : JwtHeader)
    (token : String) (jwk : Jwk) : Except AuthError TokenData :=
  match env.decodeKey jwk with
  | Except.error e => Except.error (AuthError.invalidToken e)
  | Except.ok key =>
      match env.decodeToken token key ⟨hd.alg, config.audience, config.issuer⟩ with
      | Except.error e => Except.error (AuthError.invalidToken e)
      | Except.ok td => Except.ok td

/-- The `for jwks_url in &self.config.jwks_urls` loop of
`validate_token` (`src/auth.rs` lines 188-221), threading the cache and
the fetch count: a `get_jwks` error means `continue`; a key set without
the token's kid means the loop simply moves on; the first key whose
`key_id` matches is used; an exhausted list yields the terminal
`InvalidToken` error. -/
def tryJwksUrls (env : Env) (config : AuthConfig) (now : Nat)
    (hd : JwtHeader) (kid : String) (token : String) :
    List String → JwksCacheMap → Nat →
    Except AuthError TokenData × JwksCacheMap × Nat
  | [], cache, n =>
      (Except.error (AuthError.invalidToken "No matching key found in JWKS"),
       cache, n)
  | url :: rest, cache, n =>
      match get_jwks env config now cache url with
      | (Except.error _, cache1, k) =>
          tryJwksUrls env config now hd kid token rest cache1 (n + k)
      | (Except.ok jwks, cache1, k) =>
          match jwks.keys.find? (fun j => j.key_id == some kid) with
          | none => tryJwksUrls env config now hd kid token rest cache1 (n + k)
          | some jwk => (keyOutcome env config hd token jwk, cache1, n + k)

/-- `JwtValidator::validate_token` from `src/auth.rs` lines 179-222. -/
def validate_token (env : Env) (config : AuthConfig) (now : Nat)
    (cache : JwksCacheMap) (token : String) :
    Except AuthError TokenData × JwksCacheMap × Nat :=
  match env.decodeHeader token with
  | Except.error e => (Except.error (AuthError.invalidToken e), cache, 0)
  | Except.ok hd =>
      match hd.kid with
      | none =>
          (Except.error (AuthError.invalidToken "Missing kid in JWT header"),
           cache, 0)
      | some kid => tryJwksUrls env config now hd kid token config.jwks_urls cache 0

/-- Rust `str::strip_prefix`: `some` of the remainder when `p` is a
prefix of `s`, else `none`. The match is exact and case-sensitive. -/
def stripPrefixOpt (p s : String) : Option String :=
  if p.data.isPrefixOf s.data then some (s.drop p.length) else none

/-- The request as `auth_middleware` observes it: the value of the
`Authorization` header, `none` when the header is absent or not valid
UTF-8 (`to_str().ok()` collapses both). -/
structure AuthRequest where
  authorization : Option String
deriving DecidableEq, Repr

/-- `auth_middleware` from `src/auth.rs` lines 337-369. The result
carries the `Claims` attached to the request extensions (if any),
whether the next stage was invoked, and the cache after the call. The
middleware never returns an error: a missing header, a non-Bearer
header, or a failed validation all fall through to `next.run` with no
claims attached. -/
def auth_middleware (env : Env) (config : AuthConfig) (now : Nat)
    (cache : JwksCacheMap) (req : AuthRequest) :
    (Option Claims × Bool) × JwksCacheMap :=
  if config.enabled = false then ((none, true), cache)
  else
    match req.authorization with
    | none => ((none, true), cache)
    | some h =>
        match stripPrefixOpt "Bearer " h with
        | none => ((none, true), cache)
        | some token =>
            match validate_token env config now cache token with
            | (Except.ok td, cache1, _) => ((some td.claims, true), cache1)
            | (Except.error _, cache1, _) => ((none, true), cache1)

/-- `validate_client_assertion` from `src/auth.rs` lines 372-392. -/
def validate_client_assertion (env : Env) (config : AuthConfig) (now : Nat)
    (cache : JwksCacheMap) (assertion client_id : String) :
    Except AuthError Unit × JwksCacheMap :=
  match validate_token env config now cache assertion with
  | (Except.error e, cache1, _) => (Except.error e, cache1)
  | (Except.ok td, cache1, _) =>
      if td.claims.sub ≠ client_id then
        (Except.error (AuthError.invalidToken "Client ID mismatch in sub claim"),
         cache1)
      else
        match td.claims.iss with
        | some iss =>
            if iss ≠ client_id then
              (Except.error
                 (AuthError.invalidToken "Client ID mismatch in iss claim"),
               cache1)
            else (Except.ok (), cache1)
        | none => (Except.ok (), cache1)

/-- A cache is consistent with the fetch oracle when every entry holds
exactly the key set the oracle returns for its URL (true of every cache
reachable from the empty one at a fixed instant, since entries are only
installed from successful fetches). -/
def cacheConsistent (env : Env) (cache : JwksCacheMap) : Prop :=
  ∀ u e, alookup cache u = some e → env.fetch u = Except.ok e.jwks

/-- An issuer URL that cannot supply the token's key id: either its
fetch fails, or the fetched key set has no key with that id. -/
def skippedUrl (env : Env) (kid : String) (u : String) : Prop :=
  ∀ jw, env.fetch u = Except.ok jw →
    jw.keys.find? (fun j => j.key_id == some kid) = none

end Auth

namespace Fixtures

/-- Two issuer URLs used in concrete evaluations. -/
def urlA : String := "https://issuer-a/jwks"

def urlB : String := "https://issuer-b/jwks"

/-- A key with id `k1`. -/
def jwkK1 : Auth.Jwk := ⟨some "k1", 5⟩

/-- A key set containing exactly the key `k1`. -/
def jwksK1 : Auth.JwkSet := ⟨[jwkK1]⟩

/-- The token data a successful decode yields in the fixtures. -/
def tokenDataK1 : Auth.TokenData :=
  ⟨⟨7, some "k1"⟩, ⟨"user-42", 9999, 1, none, none, []⟩⟩

/-- An environment where issuer A is unreachable, issuer B serves
`jwksK1`, and decoding always succeeds. -/
def envAB : Auth.Env :=
  { decodeHeader := fun _ => Except.ok ⟨7, some "k1"⟩,
    fetch := fun u =>
      if u = urlB then Except.ok jwksK1
      else Except.error "connection timed out",
    decodeKey := fun j => Except.ok j.material,
    decodeToken := fun _ _ _ => Except.ok tokenDataK1 }

/-- An environment where every network fetch fails but header decoding
and token decoding would succeed. -/
def envFetchFail : Auth.Env :=
  { decodeHeader := fun _ => Except.ok ⟨7, some "k1"⟩,
    fetch := fun _ => Except.error "connection timed out",
    decodeKey := fun j => Except.ok j.material,
    decodeToken := fun _ _ _ => Except.ok tokenDataK1 }

/-- An environment whose header decode succeeds but yields no `kid`. -/
def envNoKid : Auth.Env :=
  { decodeHeader := fun _ => Except.ok ⟨7, none⟩,
    fetch := fun _ => Except.error "connection timed out",
    decodeKey := fun j => Except.ok j.material,
    decodeToken := fun _ _ _ => Except.ok tokenDataK1 }

/-- Auth configuration with the two fixture issuers, TTL 3600. -/
def cfgTwo : Auth.AuthConfig := ⟨true, [urlA, urlB], none, none, 3600⟩

/-- Auth configuration with issuer A only, TTL 100. -/
def cfgOne : Auth.AuthConfig := ⟨true, [urlA], none, none, 100⟩

/-- A cache holding a key set for issuer A fetched at instant 0. -/
def staleCache : Auth.JwksCacheMap := [(urlA, ⟨jwksK1, 0⟩)]

/-- The run of `rate_limit_middleware` (`src/rate_limit.rs`) on a
request from an identity whose window is already at the limit
(`max_requests = 1`, `count = 1`, window not yet expired). -/
def c4BlockedRun : (Response × Bool) × RateLimit.WindowMap :=
  RateLimit.rate_limit_middleware ⟨1, 60, true⟩
    [("198.51.100.7", ⟨1, 100⟩)] "198.51.100.7" 0 ⟨200, [], []⟩

end Fixtures

/-! Helper lemmas shared by the claim theorems. -/

/-- The window map after `k` same-instant checks for one identity from
the empty map: the single entry holds `count = k` (for `k ≥ 1`),
provided the limiter is enabled, the window has positive length, and no
more than `max_requests` checks have happened. -/
theorem checksFrom_eq (cfg : RateLimit.RateLimitConfig) (ip : String) (now : Nat)
    (he : cfg.enabled = true) (hw : 0 < cfg.window_duration) :
    ∀ k, k ≤ cfg.max_requests →
      RateLimit.checksFrom cfg ip now k
        = if k = 0 then [] else [(ip, ⟨k, now + cfg.window_duration⟩)] := by
  intro k
  induction k with
  | zero => intro _; rfl
  | succ k ih =>
    intro hk
    have hk' : k ≤ cfg.max_requests := Nat.le_of_succ_le hk
    have hkN : k < cfg.max_requests := hk
    have hreset : ¬ (now + cfg.window_duration ≤ now) := by omega
    rw [RateLimit.checksFrom, ih hk']
    by_cases h0 : k = 0
    · subst h0
      simp [RateLimit.check_rate_limit, he, alookup, ainsert, hreset,
        Nat.not_le.mpr hkN]
    · simp [h0, RateLimit.check_rate_limit, he, alookup, ainsert, hreset,
        Nat.not_le.mpr hkN]

/-- C1: the claim says the disabled bypass returns Allowed with
`remaining = max_requests` and an untouched window map. Both
implementations do leave the map untouched, but at `max_requests = 5`
the `src/rate_limit.rs` checker returns the tuple `(5, 0, now + 60)` —
`remaining = 0`, not 5 — while the duplicate snapshot in
`src/middleware/rate_limit.rs` returns `(5, 5, now + 60)` as the claim
states, exhibiting the slip in `src/rate_limit.rs`. -/
theorem c1_disabled_bypass_divergence :
    RateLimit.check_rate_limit ⟨5, 60, false⟩ [] "203.0.113.9" 0
      = (Except.ok (5, 0, 60), [])
    ∧ (RateLimit.check_rate_limit ⟨5, 60, false⟩ [] "203.0.113.9" 0).1
        ≠ Except.ok (5, 5, 60)
    ∧ MW.check_rate_limit ⟨5, false⟩ [] "203.0.113.9" 0
      = (Except.ok (5, 5, 60), []) := by
  decide

/-- C3: with rate limiting enabled and a positive window, the checker
agrees with the spec's fixed-window step on every state, the first
`max_requests` same-window checks for one identity return Allowed with
`remaining = N-1, N-2, …, 0` while the stored count climbs to `k + 1`,
and the check after the `N`-th returns Blocked without incrementing the
stored count. -/
theorem c3_fixed_window_sequence (cfg : RateLimit.RateLimitConfig)
    (he : cfg.enabled = true) (hw : 0 < cfg.window_duration)
    (ip : String) (now : Nat) :
    (∀ windows, RateLimit.check_rate_limit cfg windows ip now
        = RateLimit.fixedWindowSpec cfg windows ip now)
    ∧ (∀ k, k < cfg.max_requests →
        RateLimit.check_rate_limit cfg (RateLimit.checksFrom cfg ip now k) ip now
          = (Except.ok (cfg.max_requests, cfg.max_requests - (k + 1),
              now + cfg.window_duration),
             [(ip, ⟨k + 1, now + cfg.window_duration⟩)]))
    ∧ RateLimit.check_rate_limit cfg
        (RateLimit.checksFrom cfg ip now cfg.max_requests) ip now
        = (Except.error 429,
           [(ip, ⟨cfg.max_requests, now + cfg.window_duration⟩)]) := by
  refine ⟨?_, ?_, ?_⟩
  · intro windows
    simp [RateLimit.check_rate_limit, RateLimit.fixedWindowSpec, he]
  · intro k hk
    rw [checksFrom_eq cfg ip now he hw k (Nat.le_of_lt hk)]
    have hreset : ¬ (now + cfg.window_duration ≤ now) := by omega
    by_cases h0 : k = 0
    · subst h0
      simp [RateLimit.check_rate_limit, he, alookup, ainsert, hreset,
        Nat.not_le.mpr hk]
    · simp [h0, RateLimit.check_rate_limit, he, alookup, ainsert, hreset,
        Nat.not_le.mpr hk]
  · rw [checksFrom_eq cfg ip now he hw cfg.max_requests (Nat.le_refl _)]
    have hreset : ¬ (now + cfg.window_duration ≤ now) := by omega
    by_cases h0 : cfg.max_requests = 0
    · simp [h0, RateLimit.check_rate_limit, he, alookup, ainsert, hreset]
    · simp [h0, RateLimit.check_rate_limit, he, alookup, ainsert, hreset]

/-- Witness for C3: at `max_requests = 2`, the second check returns
Allowed with `remaining = 0` and the third returns Blocked. -/
theorem c3_witness :
    RateLimit.check_rate_limit ⟨2, 60, true⟩
        (RateLimit.checksFrom ⟨2, 60, true⟩ "198.51.100.7" 0 1) "198.51.100.7" 0
      = (Except.ok (2, 0, 60), [("198.51.100.7", ⟨2, 60⟩)])
    ∧ RateLimit.check_rate_limit ⟨2, 60, true⟩
        (RateLimit.checksFrom ⟨2, 60, true⟩ "198.51.100.7" 0 2) "198.51.100.7" 0
      = (Except.error 429, [("198.51.100.7", ⟨2, 60⟩)]) :=
  ⟨(c3_fixed_window_sequence ⟨2, 60, true⟩ rfl (by decide)
      "198.51.100.7" 0).2.1 1 (by decide),
   (c3_fixed_window_sequence ⟨2, 60, true⟩ rfl (by decide)
      "198.51.100.7" 0).2.2⟩

/-- C4 counterexample: a blocked request does get a short-circuit 429
with `Retry-After: 60` and the business stage is not invoked, but —
contrary to the claim — the blocked response carries none of the
`X-RateLimit-Limit` / `X-RateLimit-Remaining` / `X-RateLimit-Reset`
headers (they are only attached on the Allowed path), and its body nests
the code as `{error: {code: "RATE_LIMIT_EXCEEDED", message}}` rather
than the claimed flat `{error: "RATE_LIMIT_EXCEEDED", message}`. -/
theorem c4_counterexample :
    Fixtures.c4BlockedRun.1.1.status = 429
    ∧ alookup Fixtures.c4BlockedRun.1.1.headers "Retry-After" = some "60"
    ∧ alookup Fixtures.c4BlockedRun.1.1.headers "X-RateLimit-Limit" = none
    ∧ alookup Fixtures.c4BlockedRun.1.1.headers "X-RateLimit-Remaining" = none
    ∧ alookup Fixtures.c4BlockedRun.1.1.headers "X-RateLimit-Reset" = none
    ∧ alookup Fixtures.c4BlockedRun.1.1.body "error"
        = some (JField.jobj
            [("code", "RATE_LIMIT_EXCEEDED"),
             ("message", "Too many requests. Please try again later.")])
    ∧ alookup Fixtures.c4BlockedRun.1.1.body "error"
        ≠ some (JField.jstr "RATE_LIMIT_EXCEEDED")
    ∧ alookup Fixtures.c4BlockedRun.1.1.body "message" = none
    ∧ Fixtures.c4BlockedRun.1.2 = false := by
  decide

/-- C4 amended: every request blocked by the rate limiter receives a
short-circuit response — the business stage is not invoked — with
status 429, the single header `Retry-After: 60` (no `X-RateLimit-*`
headers), and the JSON body
`{error: {code: "RATE_LIMIT_EXCEEDED", message: ...}}`; this holds for
both `src/rate_limit.rs` and `src/middleware/rate_limit.rs`. -/
theorem c4_blocked_short_circuit (cfg : RateLimit.RateLimitConfig)
    (windows : RateLimit.WindowMap) (ip : String) (now : Nat)
    (next : Response) :
    ((RateLimit.check_rate_limit cfg windows ip now).1 = Except.error 429 →
      RateLimit.rate_limit_middleware cfg windows ip now next
        = ((⟨429, [("Retry-After", "60")], RateLimit.rateLimitExceededBody⟩,
            false),
           (RateLimit.check_rate_limit cfg windows ip now).2))
    ∧ (∀ cfg2 : MW.RateLimitConfig,
        (MW.check_rate_limit cfg2 windows ip now).1 = Except.error 429 →
        MW.rate_limit_middleware cfg2 windows ip now next
          = ((⟨429, [("Retry-After", "60")], RateLimit.rateLimitExceededBody⟩,
              false),
             (MW.check_rate_limit cfg2 windows ip now).2)) := by
  constructor
  · intro h
    have hc : RateLimit.check_rate_limit cfg windows ip now
        = (Except.error 429,
           (RateLimit.check_rate_limit cfg windows ip now).2) :=
      Prod.ext_iff.mpr ⟨h, rfl⟩
    simp only [RateLimit.rate_limit_middleware]
    rw [hc]
    rfl
  · intro cfg2 h
    have hc : MW.check_rate_limit cfg2 windows ip now
        = (Except.error 429, (MW.check_rate_limit cfg2 windows ip now).2) :=
      Prod.ext_iff.mpr ⟨h, rfl⟩
    simp only [MW.rate_limit_middleware]
    rw [hc]
    rfl

/-- Witness for the amended C4 at the concrete blocked input of
`Fixtures.c4BlockedRun`. -/
theorem c4_witness :
    RateLimit.rate_limit_middleware ⟨1, 60, true⟩
        [("198.51.100.7", ⟨1, 100⟩)] "198.51.100.7" 0 ⟨200, [], []⟩
      = ((⟨429, [("Retry-After", "60")], RateLimit.rateLimitExceededBody⟩,
          false),
         (RateLimit.check_rate_limit ⟨1, 60, true⟩
            [("198.51.100.7", ⟨1, 100⟩)] "198.51.100.7" 0).2) :=
  (c4_blocked_short_circuit ⟨1, 60, true⟩ [("198.51.100.7", ⟨1, 100⟩)]
      "198.51.100.7" 0 ⟨200, [], []⟩).1 (by decide)

/-- Looking up the key just inserted returns the inserted value. -/
theorem alookup_ainsert {α : Type} (m : List (String × α)) (k : String) (v : α) :
    alookup (ainsert m k v) k = some v := by
  induction m with
  | nil => simp [ainsert, alookup]
  | cons p rest ih =>
    obtain ⟨a, b⟩ := p
    by_cases h : a = k
    · simp [ainsert, alookup, h]
    · simp [ainsert, alookup, h, ih]

/-- Inserting one key leaves lookups of other keys unchanged. -/
theorem alookup_ainsert_ne {α : Type} (m : List (String × α)) (k k' : String)
    (v : α) (hne : k ≠ k') :
    alookup (ainsert m k v) k' = alookup m k' := by
  induction m with
  | nil => simp [ainsert, alookup, hne]
  | cons p rest ih =>
    obtain ⟨a, b⟩ := p
    by_cases h : a = k
    · subst h
      simp [ainsert, alookup, hne]
    · simp [ainsert, alookup, h, ih]

/-- Each `get_jwks` call performs at most one network fetch. -/
theorem get_jwks_fetch_le_one (env : Auth.Env) (cfg : Auth.AuthConfig)
    (now : Nat) (cache : Auth.JwksCacheMap) (url : String) :
    (Auth.get_jwks env cfg now cache url).2.2 ≤ 1 := by
  cases halo : alookup cache url with
  | none => cases hf : env.fetch url <;> simp [Auth.get_jwks, halo, hf]
  | some e =>
    cases hl : Auth.cacheLive e.fetched_at now cfg.jwks_cache_duration with
    | true => simp [Auth.get_jwks, halo, hl]
    | false => cases hf : env.fetch url <;> simp [Auth.get_jwks, halo, hl, hf]

/-- A live cache entry is returned as-is: no fetch, no cache mutation. -/
theorem get_jwks_hit (env : Auth.Env) (cfg : Auth.AuthConfig) (now : Nat)
    (cache : Auth.JwksCacheMap) (url : String) (e : Auth.JwksCache)
    (halo : alookup cache url = some e)
    (hl : Auth.cacheLive e.fetched_at now cfg.jwks_cache_duration = true) :
    Auth.get_jwks env cfg now cache url = (Except.ok e.jwks, cache, 0) := by
  simp [Auth.get_jwks, halo, hl]

/-- On an expired entry the call fetches exactly once. -/
theorem get_jwks_expired_fetches_once (env : Auth.Env) (cfg : Auth.AuthConfig)
    (now : Nat) (cache : Auth.JwksCacheMap) (url : String) (e : Auth.JwksCache)
    (halo : alookup cache url = some e)
    (hl : Auth.cacheLive e.fetched_at now cfg.jwks_cache_duration = false) :
    (Auth.get_jwks env cfg now cache url).2.2 = 1 := by
  cases hf : env.fetch url <;> simp [Auth.get_jwks, halo, hl, hf]

/-- After a successful `get_jwks` the cache holds an entry for the URL
whose key set is exactly the returned one. -/
theorem get_jwks_ok_installs (env : Auth.Env) (cfg : Auth.AuthConfig)
    (now : Nat) (cache : Auth.JwksCacheMap) (url : String)
    (j : Auth.JwkSet) (c1 : Auth.JwksCacheMap) (n : Nat)
    (h : Auth.get_jwks env cfg now cache url = (Except.ok j, c1, n)) :
    ∃ fa, alookup c1 url = some ⟨j, fa⟩ := by
  cases halo : alookup cache url with
  | none =>
    cases hf : env.fetch url with
    | error e => simp [Auth.get_jwks, halo, hf] at h
    | ok jwks =>
      have hred : Auth.get_jwks env cfg now cache url
          = (Except.ok jwks, ainsert cache url ⟨jwks, now⟩, 1) := by
        simp [Auth.get_jwks, halo, hf]
      rw [hred] at h
      injection h with ha hbc
      injection hbc with hb hc
      injection ha with ha
      refine ⟨now, ?_⟩
      rw [← hb, alookup_ainsert, ha]
  | some e =>
    cases hl : Auth.cacheLive e.fetched_at now cfg.jwks_cache_duration with
    | true =>
      have hred : Auth.get_jwks env cfg now cache url
          = (Except.ok e.jwks, cache, 0) := by
        simp [Auth.get_jwks, halo, hl]
      rw [hred] at h
      injection h with ha hbc
      injection hbc with hb hc
      injection ha with ha
      refine ⟨e.fetched_at, ?_⟩
      rw [← hb, halo, ← ha]
    | false =>
      cases hf : env.fetch url with
      | error msg => simp [Auth.get_jwks, halo, hl, hf] at h
      | ok jwks =>
        have hred : Auth.get_jwks env cfg now cache url
            = (Except.ok jwks, ainsert cache url ⟨jwks, now⟩, 1) := by
          simp [Auth.get_jwks, halo, hl, hf]
        rw [hred] at h
        injection h with ha hbc
        injection hbc with hb hc
        injection ha with ha
        refine ⟨now, ?_⟩
        rw [← hb, alookup_ainsert, ha]

/-- A `get_jwks` call preserves cache/oracle consistency. -/
theorem get_jwks_preserves_consistent (env : Auth.Env) (cfg : Auth.AuthConfig)
    (now : Nat) (cache : Auth.JwksCacheMap) (url : String)
    (hcons : Auth.cacheConsistent env cache) :
    Auth.cacheConsistent env (Auth.get_jwks env cfg now cache url).2.1 := by
  cases halo : alookup cache url with
  | none =>
    cases hf : env.fetch url with
    | error e => simpa [Auth.get_jwks, halo, hf] using hcons
    | ok jwks =>
      have hred : (Auth.get_jwks env cfg now cache url).2.1
          = ainsert cache url ⟨jwks, now⟩ := by
        simp [Auth.get_jwks, halo, hf]
      rw [hred]
      intro u e hue
      by_cases hu : url = u
      · subst hu
        rw [alookup_ainsert] at hue
        injection hue with hue
        rw [← hue]
        exact hf
      · rw [alookup_ainsert_ne _ _ _ _ hu] at hue
        exact hcons u e hue
  | some e0 =>
    cases hl : Auth.cacheLive e0.fetched_at now cfg.jwks_cache_duration with
    | true => simpa [Auth.get_jwks, halo, hl] using hcons
    | false =>
      cases hf : env.fetch url with
      | error msg => simpa [Auth.get_jwks, halo, hl, hf] using hcons
      | ok jwks =>
        have hred : (Auth.get_jwks env cfg now cache url).2.1
            = ainsert cache url ⟨jwks, now⟩ := by
          simp [Auth.get_jwks, halo, hl, hf]
        rw [hred]
        intro u e hue
        by_cases hu : url = u
        · subst hu
          rw [alookup_ainsert] at hue
          injection hue with hue
          rw [← hue]
          exact hf
        · rw [alookup_ainsert_ne _ _ _ _ hu] at hue
          exact hcons u e hue

/-- Under cache/oracle consistency, the result of `get_jwks` is exactly
the fetch oracle's answer (a cached hit serves the same key set the
oracle would). -/
theorem get_jwks_fst_consistent (env : Auth.Env) (cfg : Auth.AuthConfig)
    (now : Nat) (cache : Auth.JwksCacheMap) (url : String)
    (hcons : Auth.cacheConsistent env cache) :
    (∀ jwks, env.fetch url = Except.ok jwks →
      (Auth.get_jwks env cfg now cache url).1 = Except.ok jwks)
    ∧ (∀ msg, env.fetch url = Except.error msg →
      (Auth.get_jwks env cfg now cache url).1
        = Except.error (Auth.AuthError.jwksFetchError msg)) := by
  cases halo : alookup cache url with
  | none =>
    constructor
    · intro jwks hf
      simp [Auth.get_jwks, halo, hf]
    · intro msg hf
      simp [Auth.get_jwks, halo, hf]
  | some e =>
    have hfe : env.fetch url = Except.ok e.jwks := hcons url e halo
    cases hl : Auth.cacheLive e.fetched_at now cfg.jwks_cache_duration with
    | true =>
      constructor
      · intro jwks hf
        rw [hfe] at hf
        injection hf with hf
        simp [Auth.get_jwks, halo, hl, hf]
      · intro msg hf
        rw [hfe] at hf
        exact absurd hf (by simp)
    | false =>
      constructor
      · intro jwks hf
        simp [Auth.get_jwks, halo, hl, hf]
      · intro msg hf
        simp [Auth.get_jwks, halo, hl, hf]

/-- C6: the key-set cache obeys its TTL: every call fetches at most
once; a call that finds a live entry (`fetched_at ≤ now` and
`now - fetched_at < ttl`) returns the cached key set with zero fetches
and an unchanged cache — so two consecutive calls inside the TTL window
fetch at most once in total — and a call that finds an expired entry
performs exactly one more fetch; a successful call always leaves an
entry holding the returned key set. -/
theorem c6_cache_ttl (env : Auth.Env) (cfg : Auth.AuthConfig) (now : Nat)
    (cache : Auth.JwksCacheMap) (url : String) :
    (Auth.get_jwks env cfg now cache url).2.2 ≤ 1
    ∧ (∀ e, alookup cache url = some e →
        Auth.cacheLive e.fetched_at now cfg.jwks_cache_duration = true →
        Auth.get_jwks env cfg now cache url = (Except.ok e.jwks, cache, 0))
    ∧ (∀ e, alookup cache url = some e →
        Auth.cacheLive e.fetched_at now cfg.jwks_cache_duration = false →
        (Auth.get_jwks env cfg now cache url).2.2 = 1)
    ∧ (∀ j c1 n, Auth.get_jwks env cfg now cache url = (Except.ok j, c1, n) →
        ∃ fa, alookup c1 url = some ⟨j, fa⟩) :=
  ⟨get_jwks_fetch_le_one env cfg now cache url,
   fun e halo hl => get_jwks_hit env cfg now cache url e halo hl,
   fun e halo hl => get_jwks_expired_fetches_once env cfg now cache url e halo hl,
   fun j c1 n h => get_jwks_ok_installs env cfg now cache url j c1 n h⟩

/-- Witness for C6: with the fixture cache (entry fetched at 0,
TTL 100), a call at instant 50 is a pure cache hit and a call at
instant 150 performs exactly one fetch. -/
theorem c6_witness :
    Auth.get_jwks Fixtures.envFetchFail Fixtures.cfgOne 50 Fixtures.staleCache
        Fixtures.urlA
      = (Except.ok Fixtures.jwksK1, Fixtures.staleCache, 0)
    ∧ (Auth.get_jwks Fixtures.envFetchFail Fixtures.cfgOne 150
        Fixtures.staleCache Fixtures.urlA).2.2 = 1 :=
  ⟨(c6_cache_ttl Fixtures.envFetchFail Fixtures.cfgOne 50 Fixtures.staleCache
      Fixtures.urlA).2.1 ⟨Fixtures.jwksK1, 0⟩ (by decide) (by decide),
   (c6_cache_ttl Fixtures.envFetchFail Fixtures.cfgOne 150 Fixtures.staleCache
      Fixtures.urlA).2.2.1 ⟨Fixtures.jwksK1, 0⟩ (by decide) (by decide)⟩

/-- C9: a token whose header decodes but carries no `kid` fails with
`InvalidToken` immediately: no issuer is consulted, no fetch happens,
and the cache is untouched. -/
theorem c9_missing_kid_fails_fast (env : Auth.Env) (cfg : Auth.AuthConfig)
    (now : Nat) (cache : Auth.JwksCacheMap) (token : String)
    (hd : Auth.JwtHeader) (h1 : env.decodeHeader token = Except.ok hd)
    (h2 : hd.kid = none) :
    Auth.validate_token env cfg now cache token
      = (Except.error (Auth.AuthError.invalidToken "Missing kid in JWT header"),
         cache, 0) := by
  simp [Auth.validate_token, h1, h2]

/-- Witness for C9 at the no-kid fixture environment. -/
theorem c9_witness :
    Auth.validate_token Fixtures.envNoKid Fixtures.cfgOne 0 Fixtures.staleCache
        "tok"
      = (Except.error (Auth.AuthError.invalidToken "Missing kid in JWT header"),
         Fixtures.staleCache, 0) :=
  c9_missing_kid_fails_fast Fixtures.envNoKid Fixtures.cfgOne 0
    Fixtures.staleCache "tok" ⟨7, none⟩ rfl rfl

/-- C2 counterexample: issuer A's key set — containing the token's kid
`k1` — was cached at instant 0 with TTL 100; at instant 100 the entry is
expired and the refresh fetch fails. `validate_token` does not fall back
to the stale keys: it returns the terminal no-matching-key
`InvalidToken` error even though the stale set holds `k1` and the decode
oracle would accept the token, so the claim's "can still succeed against
those stale cached keys" is false (the entry itself is left in place:
the returned cache equals the input cache). -/
theorem c2_counterexample :
    Auth.cacheLive 0 100 Fixtures.cfgOne.jwks_cache_duration = false
    ∧ Fixtures.jwksK1.keys.find? (fun j => j.key_id == some "k1")
        = some Fixtures.jwkK1
    ∧ Fixtures.envFetchFail.decodeToken "tok" 5 ⟨7, none, none⟩
        = Except.ok Fixtures.tokenDataK1
    ∧ Auth.validate_token Fixtures.envFetchFail Fixtures.cfgOne 100
        Fixtures.staleCache "tok"
      = (Except.error
           (Auth.AuthError.invalidToken "No matching key found in JWKS"),
         Fixtures.staleCache, 1) := by
  decide

/-- C2 amended: a failed refresh fetch after TTL expiry propagates
`JwksFetchError` and leaves the cached entry exactly in place (no
eviction), but the stale keys are not served: `get_jwks` does not fall
back to the expired entry, so with that issuer as the only configured
URL, `validate_token` fails with the no-matching-key error until a
refresh succeeds, even when the token's key-id is present in the stale
set. -/
theorem c2_stale_kept_not_served (env : Auth.Env) (cfg : Auth.AuthConfig)
    (now : Nat) (cache : Auth.JwksCacheMap) (url : String)
    (e : Auth.JwksCache) (msg : String)
    (hent : alookup cache url = some e)
    (hexp : Auth.cacheLive e.fetched_at now cfg.jwks_cache_duration = false)
    (hfail : env.fetch url = Except.error msg) :
    Auth.get_jwks env cfg now cache url
      = (Except.error (Auth.AuthError.jwksFetchError msg), cache, 1)
    ∧ (∀ token hd kid, cfg.jwks_urls = [url] →
        env.decodeHeader token = Except.ok hd → hd.kid = some kid →
        Auth.validate_token env cfg now cache token
          = (Except.error
               (Auth.AuthError.invalidToken "No matching key found in JWKS"),
             cache, 1)) := by
  have hg : Auth.get_jwks env cfg now cache url
      = (Except.error (Auth.AuthError.jwksFetchError msg), cache, 1) := by
    simp [Auth.get_jwks, hent, hexp, hfail]
  refine ⟨hg, ?_⟩
  intro token hd kid hurls hhd hkid
  simp [Auth.validate_token, hhd, hkid, hurls, Auth.tryJwksUrls, hg]

/-- Witness for the amended C2 at the stale-cache fixture. -/
theorem c2_witness :
    Auth.get_jwks Fixtures.envFetchFail Fixtures.cfgOne 100 Fixtures.staleCache
        Fixtures.urlA
      = (Except.error (Auth.AuthError.jwksFetchError "connection timed out"),
         Fixtures.staleCache, 1)
    ∧ Auth.validate_token Fixtures.envFetchFail Fixtures.cfgOne 100
        Fixtures.staleCache "tok"
      = (Except.error
           (Auth.AuthError.invalidToken "No matching key found in JWKS"),
         Fixtures.staleCache, 1) :=
  ⟨(c2_stale_kept_not_served Fixtures.envFetchFail Fixtures.cfgOne 100
      Fixtures.staleCache Fixtures.urlA ⟨Fixtures.jwksK1, 0⟩
      "connection timed out" (by decide) (by decide) rfl).1,
   (c2_stale_kept_not_served Fixtures.envFetchFail Fixtures.cfgOne 100
      Fixtures.staleCache Fixtures.urlA ⟨Fixtures.jwksK1, 0⟩
      "connection timed out" (by decide) (by decide) rfl).2
     "tok" ⟨7, some "k1"⟩ "k1" rfl rfl rfl⟩

/-- When every URL in the list either fails to fetch or lacks the kid,
the issuer loop falls through to the terminal no-matching-key error
(for any consistent starting cache). -/
theorem tryJwksUrls_all_skipped (env : Auth.Env) (cfg : Auth.AuthConfig)
    (now : Nat) (hd : Auth.JwtHeader) (kid : String) (token : String) :
    ∀ (urls : List String) (cache : Auth.JwksCacheMap) (n : Nat),
      Auth.cacheConsistent env cache →
      (∀ u ∈ urls, Auth.skippedUrl env kid u) →
      (Auth.tryJwksUrls env cfg now hd kid token urls cache n).1
        = Except.error
            (Auth.AuthError.invalidToken "No matching key found in JWKS") := by
  intro urls
  induction urls with
  | nil => intro cache n _ _; rfl
  | cons u rest ih =>
    intro cache n hcons hskip
    have hcons1 := get_jwks_preserves_consistent env cfg now cache u hcons
    rcases hg : Auth.get_jwks env cfg now cache u with ⟨r, c1, k⟩
    rw [hg] at hcons1
    cases r with
    | error a =>
      have hstep : Auth.tryJwksUrls env cfg now hd kid token (u :: rest) cache n
          = Auth.tryJwksUrls env cfg now hd kid token rest c1 (n + k) := by
        simp only [Auth.tryJwksUrls, hg]
      rw [hstep]
      exact ih c1 (n + k) hcons1
        (fun v hv => hskip v (List.mem_cons_of_mem _ hv))
    | ok jwks =>
      have hfetch : env.fetch u = Except.ok jwks := by
        cases hf : env.fetch u with
        | error m =>
          have hx := (get_jwks_fst_consistent env cfg now cache u hcons).2 m hf
          rw [hg] at hx
          exact absurd hx (by simp)
        | ok jw =>
          have hx := (get_jwks_fst_consistent env cfg now cache u hcons).1 jw hf
          rw [hg] at hx
          have : jwks = jw := by simpa using hx
          rw [this]
      have hfind := hskip u (List.mem_cons_self u rest) jwks hfetch
      have hstep : Auth.tryJwksUrls env cfg now hd kid token (u :: rest) cache n
          = Auth.tryJwksUrls env cfg now hd kid token rest c1 (n + k) := by
        simp only [Auth.tryJwksUrls, hg, hfind]
      rw [hstep]
      exact ih c1 (n + k) hcons1
        (fun v hv => hskip v (List.mem_cons_of_mem _ hv))

/-- Walking past a prefix of skipped URLs, the loop uses the first key
whose id matches in the first URL that supplies the kid, and the result
is exactly the decode outcome for that key. -/
theorem tryJwksUrls_first_match (env : Auth.Env) (cfg : Auth.AuthConfig)
    (now : Nat) (hd : Auth.JwtHeader) (kid : String) (token : String)
    (u : String) (post : List String) (jwks : Auth.JwkSet) (jwk : Auth.Jwk)
    (hfetch : env.fetch u = Except.ok jwks)
    (hfind : jwks.keys.find? (fun j => j.key_id == some kid) = some jwk) :
    ∀ (pre : List String) (cache : Auth.JwksCacheMap) (n : Nat),
      Auth.cacheConsistent env cache →
      (∀ v ∈ pre, Auth.skippedUrl env kid v) →
      (Auth.tryJwksUrls env cfg now hd kid token (pre ++ u :: post) cache n).1
        = Auth.keyOutcome env cfg hd token jwk := by
  intro pre
  induction pre with
  | nil =>
    intro cache n hcons _
    have hg1 := (get_jwks_fst_consistent env cfg now cache u hcons).1 jwks hfetch
    rcases hg : Auth.get_jwks env cfg now cache u with ⟨r, c1, k⟩
    rw [hg] at hg1
    have hr : r = Except.ok jwks := by simpa using hg1
    subst hr
    simp [Auth.tryJwksUrls, hg, hfind]
  | cons v vs ih =>
    intro cache n hcons hskip
    have hcons1 := get_jwks_preserves_consistent env cfg now cache v hcons
    rcases hg : Auth.get_jwks env cfg now cache v with ⟨r, c1, k⟩
    rw [hg] at hcons1
    cases r with
    | error a =>
      have hstep : Auth.tryJwksUrls env cfg now hd kid token
            ((v :: vs) ++ u :: post) cache n
          = Auth.tryJwksUrls env cfg now hd kid token (vs ++ u :: post) c1
              (n + k) := by
        simp only [List.cons_append, Auth.tryJwksUrls, hg]
        rfl
      rw [hstep]
      exact ih c1 (n + k) hcons1
        (fun w hw => hskip w (List.mem_cons_of_mem _ hw))
    | ok jw =>
      have hfv : env.fetch v = Except.ok jw := by
        cases hf : env.fetch v with
        | error m =>
          have hx := (get_jwks_fst_consistent env cfg now cache v hcons).2 m hf
          rw [hg] at hx
          exact absurd hx (by simp)
        | ok jw2 =>
          have hx := (get_jwks_fst_consistent env cfg now cache v hcons).1 jw2 hf
          rw [hg] at hx
          have : jw = jw2 := by simpa using hx
          rw [this]
      have hfind2 := hskip v (List.mem_cons_self v vs) jw hfv
      have hstep : Auth.tryJwksUrls env cfg now hd kid token
            ((v :: vs) ++ u :: post) cache n
          = Auth.tryJwksUrls env cfg now hd kid token (vs ++ u :: post) c1
              (n + k) := by
        simp only [List.cons_append, Auth.tryJwksUrls, hg, hfind2]
        rfl
      rw [hstep]
      exact ih c1 (n + k) hcons1
        (fun w hw => hskip w (List.mem_cons_of_mem _ hw))

/-- C5: with a cache consistent with the fetch oracle and a token whose
header carries a kid, `validate_token` iterates the configured issuer
URLs in declaration order, silently skipping every issuer whose fetch
fails (or whose key set lacks the kid); if no configured issuer supplies
the kid it fails with the `InvalidToken` no-matching-key error
(message "No matching key found in JWKS"), and if a first matching
issuer exists after a skipped prefix, the outcome is exactly the decode
outcome for the first key whose id matches. -/
theorem c5_issuer_order (env : Auth.Env) (cfg : Auth.AuthConfig) (now : Nat)
    (cache : Auth.JwksCacheMap) (token : String) (hd : Auth.JwtHeader)
    (kid : String) (hcons : Auth.cacheConsistent env cache)
    (hhd : env.decodeHeader token = Except.ok hd)
    (hkid : hd.kid = some kid) :
    ((∀ u ∈ cfg.jwks_urls, Auth.skippedUrl env kid u) →
      (Auth.validate_token env cfg now cache token).1
        = Except.error
            (Auth.AuthError.invalidToken "No matching key found in JWKS"))
    ∧ (∀ (pre : List String) (u : String) (post : List String)
        (jwks : Auth.JwkSet) (jwk : Auth.Jwk),
        cfg.jwks_urls = pre ++ u :: post →
        (∀ v ∈ pre, Auth.skippedUrl env kid v) →
        env.fetch u = Except.ok jwks →
        jwks.keys.find? (fun j => j.key_id == some kid) = some jwk →
        (Auth.validate_token env cfg now cache token).1
          = Auth.keyOutcome env cfg hd token jwk) := by
  have hv : Auth.validate_token env cfg now cache token
      = Auth.tryJwksUrls env cfg now hd kid token cfg.jwks_urls cache 0 := by
    simp [Auth.validate_token, hhd, hkid]
  constructor
  · intro hall
    rw [hv]
    exact tryJwksUrls_all_skipped env cfg now hd kid token cfg.jwks_urls cache 0
      hcons hall
  · intro pre u post jwks jwk hurls hpre hfetch hfind
    rw [hv, hurls]
    exact tryJwksUrls_first_match env cfg now hd kid token u post jwks jwk
      hfetch hfind pre cache 0 hcons hpre

/-- Witness for C5: issuer A fails, issuer B holds kid k1; validation
resolves to the decode outcome for k1's key. -/
theorem c5_witness :
    (Auth.validate_token Fixtures.envAB Fixtures.cfgTwo 50 [] "tok").1
      = Auth.keyOutcome Fixtures.envAB Fixtures.cfgTwo ⟨7, some "k1"⟩ "tok"
          Fixtures.jwkK1 :=
  (c5_issuer_order Fixtures.envAB Fixtures.cfgTwo 50 [] "tok" ⟨7, some "k1"⟩
      "k1" (fun u e h => by simp [alookup] at h) rfl rfl).2
    [Fixtures.urlA] Fixtures.urlB [] Fixtures.jwksK1 Fixtures.jwkK1 rfl
    (by
      intro v hv jw hjw
      simp only [List.mem_singleton] at hv
      subst hv
      simp [Fixtures.envAB, Fixtures.urlA, Fixtures.urlB] at hjw)
    (by decide) (by decide)

/-- C7: the auth middleware always invokes the next stage (it never
rejects a request), a request with no Authorization header passes
through untouched with no Claims, and when the bearer token fails
validation the error is swallowed: the request continues with no Claims
attached. -/
theorem c7_invalid_token_is_anonymous (env : Auth.Env) (cfg : Auth.AuthConfig)
    (now : Nat) (cache : Auth.JwksCacheMap) (req : Auth.AuthRequest) :
    ((Auth.auth_middleware env cfg now cache req).1.2 = true)
    ∧ (req.authorization = none →
        Auth.auth_middleware env cfg now cache req = ((none, true), cache))
    ∧ (∀ hval token err, req.authorization = some hval →
        Auth.stripPrefixOpt "Bearer " hval = some token →
        (Auth.validate_token env cfg now cache token).1 = Except.error err →
        (Auth.auth_middleware env cfg now cache req).1 = (none, true)) := by
  refine ⟨?_, ?_, ?_⟩
  · by_cases he : cfg.enabled = false
    · simp [Auth.auth_middleware, he]
    · cases hauth : req.authorization with
      | none => simp [Auth.auth_middleware, he, hauth]
      | some hval =>
        cases hstrip : Auth.stripPrefixOpt "Bearer " hval with
        | none => simp [Auth.auth_middleware, he, hauth, hstrip]
        | some token =>
          rcases hv : Auth.validate_token env cfg now cache token with ⟨r, c1, k⟩
          cases r <;> simp [Auth.auth_middleware, he, hauth, hstrip, hv]
  · intro h
    by_cases he : cfg.enabled = false <;> simp [Auth.auth_middleware, he, h]
  · intro hval token err hauth hstrip herr
    by_cases he : cfg.enabled = false
    · simp [Auth.auth_middleware, he]
    · rcases hv : Auth.validate_token env cfg now cache token with ⟨r, c1, k⟩
      rw [hv] at herr
      have hr : r = Except.error err := by simpa using herr
      subst hr
      simp [Auth.auth_middleware, he, hauth, hstrip, hv]

/-- Witness for C7: a bearer token whose validation fails (every fetch
fails) yields an anonymous pass-through. -/
theorem c7_witness :
    (Auth.auth_middleware Fixtures.envFetchFail Fixtures.cfgOne 0 []
        ⟨some "Bearer tok"⟩).1 = (none, true) :=
  (c7_invalid_token_is_anonymous Fixtures.envFetchFail Fixtures.cfgOne 0 []
      ⟨some "Bearer tok"⟩).2.2 "Bearer tok" "tok"
    (Auth.AuthError.invalidToken "No matching key found in JWKS") rfl
    (by decide) (by decide)

/-- C10: an Authorization header whose value does not start with the
exact, case-sensitive prefix "Bearer " is treated identically to an
absent header, for every environment: no validation outcome can
influence the result, no Claims are attached, the next stage runs, and
the cache is untouched. -/
theorem c10_case_sensitive_bearer (env : Auth.Env) (cfg : Auth.AuthConfig)
    (now : Nat) (cache : Auth.JwksCacheMap) (hval : String)
    (h : "Bearer ".data.isPrefixOf hval.data = false) :
    Auth.auth_middleware env cfg now cache ⟨some hval⟩
      = Auth.auth_middleware env cfg now cache ⟨none⟩
    ∧ Auth.auth_middleware env cfg now cache ⟨some hval⟩
      = ((none, true), cache) := by
  have hstrip : Auth.stripPrefixOpt "Bearer " hval = none := by
    simp [Auth.stripPrefixOpt, h]
  by_cases he : cfg.enabled = false
  · constructor <;> simp [Auth.auth_middleware, he]
  · constructor <;> simp [Auth.auth_middleware, he, hstrip]

/-- Witness for C10: a lowercase "bearer tok" header — in an environment
that would happily validate any token — passes through anonymously,
exactly like no header at all. -/
theorem c10_witness :
    Auth.auth_middleware Fixtures.envAB Fixtures.cfgTwo 0 []
        ⟨some "bearer tok"⟩
      = Auth.auth_middleware Fixtures.envAB Fixtures.cfgTwo 0 [] ⟨none⟩
    ∧ Auth.auth_middleware Fixtures.envAB Fixtures.cfgTwo 0 []
        ⟨some "bearer tok"⟩
      = ((none, true), []) :=
  c10_case_sensitive_bearer Fixtures.envAB Fixtures.cfgTwo 0 [] "bearer tok"
    (by decide)

/-- C8: `validate_client_assertion` succeeds exactly when the token
validates, its subject equals the expected client id, and — when an
issuer claim is present — the issuer also equals the expected client id;
and whenever the token validates but either claim mismatches, the
result is an `InvalidToken` error (fail closed). -/
theorem c8_client_assertion_fail_closed (env : Auth.Env)
    (cfg : Auth.AuthConfig) (now : Nat) (cache : Auth.JwksCacheMap)
    (assertion client_id : String) :
    ((Auth.validate_client_assertion env cfg now cache assertion client_id).1
        = Except.ok ()
      ↔ ∃ td, (Auth.validate_token env cfg now cache assertion).1
            = Except.ok td
          ∧ td.claims.sub = client_id
          ∧ (∀ iss, td.claims.iss = some iss → iss = client_id))
    ∧ (∀ td, (Auth.validate_token env cfg now cache assertion).1
          = Except.ok td →
        (td.claims.sub ≠ client_id
          ∨ ∃ iss, td.claims.iss = some iss ∧ iss ≠ client_id) →
        ∃ msg,
          (Auth.validate_client_assertion env cfg now cache assertion
              client_id).1
            = Except.error (Auth.AuthError.invalidToken msg)) := by
  rcases hv : Auth.validate_token env cfg now cache assertion with ⟨r, c1, k⟩
  have hv1 : (Auth.validate_token env cfg now cache assertion).1 = r := by
    rw [hv]
  cases r with
  | error e =>
    have hvca : (Auth.validate_client_assertion env cfg now cache assertion
        client_id).1 = Except.error e := by
      simp [Auth.validate_client_assertion, hv]
    refine ⟨⟨?_, ?_⟩, ?_⟩
    · intro h
      rw [hvca] at h
      exact absurd h (by simp)
    · rintro ⟨td, htd, -, -⟩
      exact absurd htd (by simp)
    · intro td htd
      exact absurd htd (by simp)
  | ok td0 =>
    by_cases hsub : td0.claims.sub = client_id
    · cases hiss : td0.claims.iss with
      | none =>
        have hvca : (Auth.validate_client_assertion env cfg now cache assertion
            client_id).1 = Except.ok () := by
          simp [Auth.validate_client_assertion, hv, hsub, hiss]
        refine ⟨⟨?_, ?_⟩, ?_⟩
        · intro _
          refine ⟨td0, rfl, hsub, fun iss h => ?_⟩
          rw [hiss] at h
          cases h
        · intro _
          exact hvca
        · intro td htd hbad
          have heq : td0 = td := by simpa using htd
          subst heq
          rcases hbad with hb | ⟨iss, hi, -⟩
          · exact absurd hsub hb
          · rw [hiss] at hi
            cases hi
      | some iss0 =>
        by_cases hieq : iss0 = client_id
        · have hvca : (Auth.validate_client_assertion env cfg now cache
              assertion client_id).1 = Except.ok () := by
            simp [Auth.validate_client_assertion, hv, hsub, hiss, hieq]
          refine ⟨⟨?_, ?_⟩, ?_⟩
          · intro _
            refine ⟨td0, rfl, hsub, fun iss h => ?_⟩
            rw [hiss] at h
            injection h with h
            rw [← h]
            exact hieq
          · intro _
            exact hvca
          · intro td htd hbad
            have heq : td0 = td := by simpa using htd
            subst heq
            rcases hbad with hb | ⟨iss, hi, hne⟩
            · exact absurd hsub hb
            · rw [hiss] at hi
              injection hi with hi
              exact absurd (hi ▸ hieq) hne
        · have hvca : (Auth.validate_client_assertion env cfg now cache
              assertion client_id).1
              = Except.error
                  (Auth.AuthError.invalidToken
                    "Client ID mismatch in iss claim") := by
            simp [Auth.validate_client_assertion, hv, hsub, hiss, hieq]
          refine ⟨⟨?_, ?_⟩, ?_⟩
          · intro h
            rw [hvca] at h
            exact absurd h (by simp)
          · rintro ⟨td, htd, -, hforall⟩
            have heq : td0 = td := by simpa using htd
            subst heq
            exact absurd (hforall iss0 hiss) hieq
          · intro td htd hbad
            exact ⟨_, hvca⟩
    · have hvca : (Auth.validate_client_assertion env cfg now cache assertion
          client_id).1
          = Except.error
              (Auth.AuthError.invalidToken
                "Client ID mismatch in sub claim") := by
        simp [Auth.validate_client_assertion, hv, hsub]
      refine ⟨⟨?_, ?_⟩, ?_⟩
      · intro h
        rw [hvca] at h
        exact absurd h (by simp)
      · rintro ⟨td, htd, hs, -⟩
        have heq : td0 = td := by simpa using htd
        subst heq
        exact absurd hs hsub
      · intro td htd hbad
        exact ⟨_, hvca⟩

/-- Witness for C8: a valid assertion whose subject equals the expected
client id (and whose issuer claim is absent) is accepted. -/
theorem c8_witness :
    (Auth.validate_client_assertion Fixtures.envAB Fixtures.cfgTwo 50 []
        "tok" "user-42").1 = Except.ok () :=
  (c8_client_assertion_fail_closed Fixtures.envAB Fixtures.cfgTwo 50 []
      "tok" "user-42").1.mpr
    ⟨Fixtures.tokenDataK1, by decide, rfl,
     by
       intro iss h
       simp [Fixtures.tokenDataK1] at h⟩

end Ferrous
